import Mathlib

/-!
Shallow embedding of the CSV-cleaning / indicator pipeline in src/abcd.py
(functions leer_csv, limpiar_df, filtrar_por_fecha, calcular_indicador, main),
together with proofs of the spec's claims about it.

A pandas DataFrame is modelled as an ordered list of column names plus an
ordered list of rows; each row is a list of cell values aligned with the
column list.  A cell is a string, a rational number (pandas numeric), a date
(encoded as an integer that orders like the date), or missing (NaN/NaT).
Python exceptions are modelled with Except.
-/

namespace Abcd

/-- A cell value of the tabular data model: string, numeric, date, or missing
(NaN/NaT). Dates are encoded as integers ordered like the dates they encode. -/
inductive Value where
  | str (s : String)
  | num (q : ℚ)
  | date (d : Int)
  | missing
deriving DecidableEq, Repr

abbrev Row := List Value

/-- A pandas DataFrame: named, ordered columns shared by all rows. -/
structure DataFrame where
  cols : List String
  rows : List Row
deriving DecidableEq, Repr

/-- The errors the script raises (FileNotFoundError, ValueError for the empty
CSV, KeyError for a missing column, ValueError for an invalid indicator, and
the exception pd.to_datetime raises on an unparseable bound string). -/
inductive Err where
  | fileNotFound (ruta : String)
  | emptyCsv
  | missingColumn (c : String)
  | invalidIndicator (opciones : List String)
  | badBound (s : String)
deriving DecidableEq, Repr

deriving instance DecidableEq for Except

/-- Cell of a row at a column index; out-of-range reads are missing. -/
def cell (r : Row) (i : Nat) : Value :=
  r.getD i Value.missing

/-- Digit characters to the natural number they spell (caller checks isDigit). -/
def digitsVal (cs : List Char) : Nat :=
  cs.foldl (fun a c => a * 10 + (c.toNat - 48)) 0

/-- Unsigned decimal literal: digits with an optional fractional part, as
accepted by pd.to_numeric (e.g. "10", "1.5", "1.", ".5"). -/
def parseDecimal (cs : List Char) : Option ℚ :=
  let sp := cs.span Char.isDigit
  match sp.2 with
  | [] => if sp.1 = [] then none else some (digitsVal sp.1 : ℚ)
  | c :: frac =>
    if c = '.' ∧ frac.all Char.isDigit ∧ ¬(sp.1 = [] ∧ frac = []) then
      some ((digitsVal sp.1 : ℚ) + (digitsVal frac : ℚ) / ((10 : ℚ) ^ frac.length))
    else none

/-- Surrounding whitespace removed from a character list (String.trim at
the character level, stated on lists so that it computes by recursion). -/
def trimChars (cs : List Char) : List Char :=
  ((cs.dropWhile Char.isWhitespace).reverse.dropWhile Char.isWhitespace).reverse

/-- Model of pd.to_numeric applied to one string: optional sign, then a
decimal literal; surrounding whitespace is ignored; anything else fails. -/
def parseNumeric (s : String) : Option ℚ :=
  match trimChars s.toList with
  | '-' :: rest => (parseDecimal rest).map Neg.neg
  | '+' :: rest => parseDecimal rest
  | cs => parseDecimal cs

/-- Model of pd.to_numeric with errors="coerce" on one cell: numbers pass
through, parseable strings become numbers, everything else becomes missing.
(CSV input never holds date cells before the date filter runs, so the date
case is not exercised by the pipeline.) -/
def toNumeric (v : Value) : Value :=
  match v with
  | .num q => .num q
  | .str s =>
    match parseNumeric s with
    | some q => .num q
    | none => .missing
  | .date _ => .missing
  | .missing => .missing

/-- Model of DataFrame.drop_duplicates on the row list: keep the first
occurrence of every row, preserving relative order; seen accumulates the
rows already kept. -/
def dedupAux {α : Type} [DecidableEq α] (seen : List α) : List α → List α
  | [] => []
  | a :: l => if a ∈ seen then dedupAux seen l else a :: dedupAux (a :: seen) l

/-- Rows with full-row duplicates removed, first occurrences kept. -/
def dedupKeep {α : Type} [DecidableEq α] (l : List α) : List α :=
  dedupAux [] l

/-- limpiar_df: drop full-row duplicates, require the value column, coerce it
to numeric, drop rows whose value is then missing.  (The source deduplicates
before looking the column up; deduplication does not touch the column list,
so hoisting the lookup is observationally the same.) -/
def limpiar_df (df : DataFrame) (columna_valor : String) : Except Err DataFrame :=
  match df.cols.indexOf? columna_valor with
  | none => .error (.missingColumn columna_valor)
  | some i =>
    .ok ⟨df.cols,
      ((dedupKeep df.rows).map (fun r => r.set i (toNumeric (cell r i)))).filter
        (fun r => decide (cell r i ≠ Value.missing))⟩

/-- Column names recognised as a date column (case-insensitive exact match). -/
def FECHA_NAMES : List String := ["fecha", "date", "dia", "day"]

/-- Lower-cased copy of a string (String.toLower at the character level,
stated through the character list so that it computes by recursion). -/
def lowerStr (s : String) : String :=
  ⟨s.toList.map Char.toLower⟩

/-- Date in YYYY-MM-DD form to its integer encoding y*10000 + m*100 + d,
which orders like the date; anything else fails.  Models pd.to_datetime
restricted to the ISO day format the interface documents. -/
def parseDate (s : String) : Option Int :=
  match s.toList with
  | [y1, y2, y3, y4, h1, m1, m2, h2, d1, d2] =>
    if h1 = '-' ∧ h2 = '-' ∧ [y1, y2, y3, y4, m1, m2, d1, d2].all Char.isDigit then
      let m := digitsVal [m1, m2]
      let d := digitsVal [d1, d2]
      if 1 ≤ m ∧ m ≤ 12 ∧ 1 ≤ d ∧ d ≤ 31 then
        some ((digitsVal [y1, y2, y3, y4] : Int) * 10000 + (m : Int) * 100 + (d : Int))
      else none
    else none
  | _ => none

/-- Model of pd.to_datetime with errors="coerce" on one cell: dates pass
through, parseable strings become dates, everything else becomes missing.
(Numeric cells, which real pandas would read as epoch offsets, are treated
as missing; no claim exercises a numeric cell in a date column.) -/
def toDate (v : Value) : Value :=
  match v with
  | .date d => .date d
  | .str s =>
    match parseDate s with
    | some d => .date d
    | none => .missing
  | .num _ => .missing
  | .missing => .missing

/-- Comparison df[col] >= bound on a date cell. -/
def dateGE (v : Value) (d : Int) : Bool :=
  match v with
  | .date x => decide (d ≤ x)
  | _ => false

/-- Comparison df[col] <= bound on a date cell. -/
def dateLE (v : Value) (d : Int) : Bool :=
  match v with
  | .date x => decide (x ≤ d)
  | _ => false

/-- One bound of the date filter: Python's `if desde:` skips None and the
empty string; otherwise pd.to_datetime(bound) raises on an unparseable
string, and on success the rows are filtered by the comparison. -/
def applyBound (cmp : Value → Int → Bool) (b : Option String) (i : Nat)
    (rows : List Row) : Except Err (List Row) :=
  match b with
  | none => .ok rows
  | some s =>
    if s = "" then .ok rows
    else
      match parseDate s with
      | none => .error (.badBound s)
      | some d => .ok (rows.filter (fun r => cmp (cell r i) d))

/-- filtrar_por_fecha: detect the first date-named column; if none, or both
bounds are None, return the data unchanged; otherwise coerce that column to
dates, drop rows where coercion failed, then apply whichever bounds are
truthy (inclusive on both sides). -/
def filtrar_por_fecha (df : DataFrame) (desde hasta : Option String) :
    Except Err DataFrame :=
  match df.cols.findIdx? (fun c => decide (lowerStr c ∈ FECHA_NAMES)) with
  | none => .ok df
  | some i =>
    if desde = none ∧ hasta = none then .ok df
    else
      let rows1 := df.rows.map (fun r => r.set i (toDate (cell r i)))
      let rows2 := rows1.filter (fun r => decide (cell r i ≠ Value.missing))
      match applyBound dateGE desde i rows2 with
      | .error e => .error e
      | .ok rows3 =>
        match applyBound dateLE hasta i rows3 with
        | .error e => .error e
        | .ok rows4 => .ok ⟨df.cols, rows4⟩

/-- The valid indicator selectors (INDICADORES_VALIDOS in the source). -/
def INDICADORES_VALIDOS : List String := ["suma", "promedio", "mediana", "conteo"]

/-- Lexicographic code-point order on character lists (Python string order). -/
def lexLe : List Char → List Char → Bool
  | [], _ => true
  | _ :: _, [] => false
  | a :: as, b :: bs => if a = b then lexLe as bs else decide (a.toNat < b.toNat)

/-- Python string comparison a <= b by code points. -/
def strLe (a b : String) : Bool :=
  lexLe a.toList b.toList

/-- Insert into a list sorted by le (used to model Python's sorted). -/
def insertSortedBy {α : Type} (le : α → α → Bool) (a : α) : List α → List α
  | [] => [a]
  | b :: l => if le a b then a :: b :: l else b :: insertSortedBy le a l

/-- Insertion sort, ascending by le. -/
def sortListBy {α : Type} (le : α → α → Bool) : List α → List α
  | [] => []
  | a :: l => insertSortedBy le a (sortListBy le l)

/-- The numeric entries of a column slice (pandas reductions skip NaN). -/
def numsOf (l : List Value) : List ℚ :=
  l.filterMap (fun v =>
    match v with
    | .num q => some q
    | _ => none)

/-- Count of non-missing entries (pandas GroupBy.count counts non-NA cells). -/
def countNonNA (l : List Value) : Nat :=
  (l.filter (fun v => decide (v ≠ Value.missing))).length

/-- Pandas Series.median on the numeric entries: sort ascending; the middle
element for odd length, the midpoint of the two middle elements for even
length; NaN (missing) on an empty slice. -/
def median (l : List ℚ) : Value :=
  let s := List.insertionSort (· ≤ ·) l
  if s.length = 0 then .missing
  else if s.length % 2 = 1 then .num (s.getD (s.length / 2) 0)
  else .num ((s.getD (s.length / 2 - 1) 0 + s.getD (s.length / 2) 0) / 2)

/-- Whether a cell holds a number. -/
def isNum (v : Value) : Bool :=
  match v with
  | .num _ => true
  | _ => false

/-- The number held by a cell, if any. -/
def getNum (v : Value) : Option ℚ :=
  match v with
  | .num q => some q
  | _ => none

/-- The numeric entries of the statistic column (column index 1) of an
aggregation result. -/
def statValues (df : DataFrame) : List ℚ :=
  df.rows.filterMap (fun r => getNum (cell r 1))

/-- Whether an optional bound string would get past pd.to_datetime without
raising: absent, empty (falsy, so never parsed), or parseable. -/
def boundOkB (b : Option String) : Bool :=
  match b with
  | none => true
  | some s => decide (s = "") || (parseDate s).isSome

/-- The reduction each indicator applies to one group's value-column slice. -/
def aggregate (indicador : String) (l : List Value) : Value :=
  if indicador = "suma" then .num (numsOf l).sum
  else if indicador = "promedio" then
    (if (numsOf l).length = 0 then .missing
     else .num ((numsOf l).sum / ((numsOf l).length : ℚ)))
  else if indicador = "mediana" then median (numsOf l)
  else .num (countNonNA l)

/-- calcular_indicador: require the category column, validate the indicator
(the error message lists the valid options sorted), then group rows by the
category cell — missing keys form their own group (groupby dropna=False) —
and reduce each group's value column with the selected statistic.  The
output has one row per distinct key, in first-encounter order (the spec
admits any stable deterministic order), and columns
[categoria, indicador_valor]. -/
def calcular_indicador (df : DataFrame) (categoria valor indicador : String) :
    Except Err DataFrame :=
  match df.cols.indexOf? categoria with
  | none => .error (.missingColumn categoria)
  | some ci =>
    if indicador ∈ INDICADORES_VALIDOS then
      match df.cols.indexOf? valor with
      | none => .error (.missingColumn valor)
      | some vi =>
        let keys := dedupKeep (df.rows.map (fun r => cell r ci))
        let outRows := keys.map (fun k =>
          let grp := df.rows.filter (fun r => decide (cell r ci = k))
          [k, aggregate indicador (grp.map (fun r => cell r vi))])
        .ok ⟨[categoria, indicador ++ "_" ++ valor], outRows⟩
    else .error (.invalidIndicator (sortListBy strLe INDICADORES_VALIDOS))

/-- leer_csv after parsing: reject a dataset with zero rows. -/
def leer_csv (df : DataFrame) : Except Err DataFrame :=
  if df.rows = [] then .error .emptyCsv else .ok df

/-- The command-line arguments consumed by main. -/
structure Args where
  csv : String
  categoria : String
  valor : String
  indicador : String
  desde : Option String
  hasta : Option String
  out : String

/-- A filesystem effect of a run; the only one is writing the report. -/
inductive FsEvent where
  | write (path : String) (report : DataFrame)
deriving DecidableEq, Repr

/-- main, with the filesystem abstracted: the input file's existence and
parsed content are parameters, and the value is the list of filesystem
writes performed together with the final outcome.  Mirrors the statement
order of main: existence check, read, clean, date filter, aggregate, write. -/
def mainModel (fileExists : Bool) (contents : DataFrame) (args : Args) :
    List FsEvent × Except Err Unit :=
  if !fileExists then ([], .error (.fileNotFound args.csv))
  else
    match leer_csv contents with
    | .error e => ([], .error e)
    | .ok df0 =>
      match limpiar_df df0 args.valor with
      | .error e => ([], .error e)
      | .ok df1 =>
        match filtrar_por_fecha df1 args.desde args.hasta with
        | .error e => ([], .error e)
        | .ok df2 =>
          match calcular_indicador df2 args.categoria args.valor args.indicador with
          | .error e => ([], .error e)
          | .ok reporte => ([.write args.out reporte], .ok ())

/-! Lemmas about the deduplication pass. -/

theorem mem_of_mem_dedupAux {α : Type} [DecidableEq α] {x : α} :
    ∀ (seen l : List α), x ∈ dedupAux seen l → x ∈ l := by
  intro seen l
  induction l generalizing seen with
  | nil => simp [dedupAux]
  | cons a l ih =>
    simp only [dedupAux]
    split
    · intro h
      exact List.mem_cons_of_mem _ (ih _ h)
    · intro h
      rcases List.mem_cons.mp h with h | h
      · exact h ▸ List.mem_cons_self _ _
      · exact List.mem_cons_of_mem _ (ih _ h)

theorem mem_dedupAux_of_mem {α : Type} [DecidableEq α] {x : α} :
    ∀ (seen l : List α), x ∈ l → x ∉ seen → x ∈ dedupAux seen l := by
  intro seen l
  induction l generalizing seen with
  | nil => simp
  | cons a l ih =>
    intro hxl hxs
    simp only [dedupAux]
    split
    · rcases List.mem_cons.mp hxl with h | h
      · exact absurd (h ▸ (by assumption : a ∈ seen)) hxs
      · exact ih _ h hxs
    · rcases List.mem_cons.mp hxl with h | h
      · exact h ▸ List.mem_cons_self _ _
      · by_cases hxa : x = a
        · exact hxa ▸ List.mem_cons_self _ _
        · refine List.mem_cons_of_mem _ (ih _ h ?_)
          intro hmem
          rcases List.mem_cons.mp hmem with h2 | h2
          · exact hxa h2
          · exact hxs h2

theorem nodup_dedupAux {α : Type} [DecidableEq α] :
    ∀ (seen l : List α), (dedupAux seen l).Nodup ∧ ∀ x ∈ dedupAux seen l, x ∉ seen := by
  intro seen l
  induction l generalizing seen with
  | nil => simp [dedupAux]
  | cons a l ih =>
    simp only [dedupAux]
    split
    · exact ih seen
    · obtain ⟨hnd, hout⟩ := ih (a :: seen)
      refine ⟨List.nodup_cons.mpr ⟨fun hmem => ?_, hnd⟩, ?_⟩
      · exact hout a hmem (List.mem_cons_self _ _)
      · intro x hx
        rcases List.mem_cons.mp hx with h | h
        · exact h ▸ (by assumption)
        · exact fun hs => hout x h (List.mem_cons_of_mem _ hs)

theorem dedupAux_eq_self {α : Type} [DecidableEq α] :
    ∀ (seen l : List α), l.Nodup → (∀ x ∈ l, x ∉ seen) → dedupAux seen l = l := by
  intro seen l
  induction l generalizing seen with
  | nil => simp [dedupAux]
  | cons a l ih =>
    intro hnd hout
    obtain ⟨ha, hnd2⟩ := List.nodup_cons.mp hnd
    simp only [dedupAux]
    rw [if_neg (hout a (List.mem_cons_self _ _))]
    congr 1
    refine ih _ hnd2 fun x hx hmem => ?_
    rcases List.mem_cons.mp hmem with h | h
    · exact ha (h ▸ hx)
    · exact hout x (List.mem_cons_of_mem _ hx) h

theorem nodup_dedupKeep {α : Type} [DecidableEq α] (l : List α) :
    (dedupKeep l).Nodup :=
  (nodup_dedupAux [] l).1

theorem mem_dedupKeep_iff {α : Type} [DecidableEq α] {x : α} {l : List α} :
    x ∈ dedupKeep l ↔ x ∈ l :=
  ⟨mem_of_mem_dedupAux [] l, fun h => mem_dedupAux_of_mem [] l h (by simp)⟩

theorem dedupKeep_eq_self {α : Type} [DecidableEq α] {l : List α} (h : l.Nodup) :
    dedupKeep l = l :=
  dedupAux_eq_self [] l h (by simp)

theorem dedupKeep_length_toFinset {α : Type} [DecidableEq α] (l : List α) :
    (dedupKeep l).length = l.toFinset.card := by
  have h1 : (dedupKeep l).toFinset = l.toFinset := by
    ext x
    simp [List.mem_toFinset, mem_dedupKeep_iff]
  rw [← h1, ← List.toFinset_card_of_nodup (nodup_dedupKeep l)]

/-! Lemmas about reading and writing cells of a row. -/

theorem cell_ge_missing {r : Row} {i : Nat} (h : r.length ≤ i) :
    cell r i = Value.missing := by
  simp [cell, List.getD_eq_getElem?_getD, List.getElem?_eq_none h]

theorem set_of_length_le {r : Row} {i : Nat} {v : Value} (h : r.length ≤ i) :
    r.set i v = r := by
  induction r generalizing i with
  | nil => simp
  | cons a l ih =>
    cases i with
    | zero => simp at h
    | succ j => simp [List.set, ih (Nat.le_of_succ_le_succ h)]

theorem cell_set_lt {r : Row} {i : Nat} {v : Value} (h : i < r.length) :
    cell (r.set i v) i = v := by
  induction r generalizing i with
  | nil => simp at h
  | cons a l ih =>
    cases i with
    | zero => simp [cell, List.set]
    | succ j =>
      simp only [List.set, cell, List.getD_cons_succ]
      exact ih (Nat.lt_of_succ_lt_succ h)

theorem cell_set_ne {r : Row} {i j : Nat} {v : Value} (h : j ≠ i) :
    cell (r.set j v) i = cell r i := by
  induction r generalizing i j with
  | nil => simp
  | cons a l ih =>
    cases j with
    | zero =>
      cases i with
      | zero => exact absurd rfl h
      | succ i2 => simp [List.set, cell]
    | succ j2 =>
      cases i with
      | zero => simp [List.set, cell]
      | succ i2 =>
        simp only [List.set, cell, List.getD_cons_succ]
        exact ih fun he => h (congrArg Nat.succ he)

theorem set_cell_self {r : Row} {i : Nat} {w : Value} (hc : cell r i = w) :
    r.set i w = r := by
  by_cases hlen : r.length ≤ i
  · exact set_of_length_le hlen
  · induction r generalizing i with
    | nil => simp at hlen
    | cons a l ih =>
      cases i with
      | zero =>
        simp only [cell, List.getD_cons_zero] at hc
        simp [List.set, hc]
      | succ j =>
        simp only [cell, List.getD_cons_succ] at hc
        simp only [List.set, List.cons.injEq, true_and]
        by_cases hl : l.length ≤ j
        · exact set_of_length_le hl
        · exact ih hc hl

/-! Lemmas about the numeric and date coercions. -/

theorem toNumeric_cases (v : Value) :
    toNumeric v = Value.missing ∨ ∃ q, toNumeric v = Value.num q := by
  cases v with
  | str s =>
    simp only [toNumeric]
    cases parseNumeric s with
    | none => exact Or.inl rfl
    | some q => exact Or.inr ⟨q, rfl⟩
  | num q => exact Or.inr ⟨q, rfl⟩
  | date d => exact Or.inl rfl
  | missing => exact Or.inl rfl

theorem toDate_cases (v : Value) :
    toDate v = Value.missing ∨ ∃ d, toDate v = Value.date d := by
  cases v with
  | str s =>
    simp only [toDate]
    cases parseDate s with
    | none => exact Or.inl rfl
    | some d => exact Or.inr ⟨d, rfl⟩
  | num q => exact Or.inl rfl
  | date d => exact Or.inr ⟨d, rfl⟩
  | missing => exact Or.inl rfl

/-- A map that fixes every member of a list is the identity on it. -/
theorem map_eq_self {α : Type} {f : α → α} :
    ∀ {l : List α}, (∀ a ∈ l, f a = a) → l.map f = l := by
  intro l
  induction l with
  | nil => simp
  | cons a l ih =>
    intro h
    simp only [List.map_cons, List.cons.injEq]
    exact ⟨h a (List.mem_cons_self _ _), ih fun x hx => h x (List.mem_cons_of_mem _ hx)⟩

/-- Members of a coerce-then-dropna row list: the coerced cell satisfies
whatever the coercion's non-missing range satisfies. -/
theorem mem_coerce_filter {f : Value → Value} (P : Value → Prop)
    (hf : ∀ v, f v = Value.missing ∨ P (f v)) {rows : List Row} {i : Nat} {r : Row}
    (hr : r ∈ (rows.map fun r0 => r0.set i (f (cell r0 i))).filter
      fun r0 => decide (cell r0 i ≠ Value.missing)) :
    P (cell r i) := by
  obtain ⟨hmem, hpred⟩ := List.mem_filter.mp hr
  obtain ⟨r0, _, hset⟩ := List.mem_map.mp hmem
  have hne : cell r i ≠ Value.missing := of_decide_eq_true hpred
  by_cases hlen : r0.length ≤ i
  · exfalso
    apply hne
    rw [← hset, set_of_length_le hlen]
    exact cell_ge_missing hlen
  · have hcell : cell r i = f (cell r0 i) := by
      rw [← hset]
      exact cell_set_lt (Nat.lt_of_not_le hlen)
    rcases hf (cell r0 i) with h | h
    · exact absurd (hcell.trans h) hne
    · exact hcell ▸ h

/-! Inversion and structure lemmas for the Cleaner. -/

theorem limpiar_eq_of_indexOf {df : DataFrame} {v : String} {i : Nat}
    (hi : df.cols.indexOf? v = some i) :
    limpiar_df df v = .ok ⟨df.cols,
      ((dedupKeep df.rows).map (fun r => r.set i (toNumeric (cell r i)))).filter
        (fun r => decide (cell r i ≠ Value.missing))⟩ := by
  unfold limpiar_df
  rw [hi]

theorem limpiar_inv {df df2 : DataFrame} {v : String}
    (h : limpiar_df df v = .ok df2) :
    ∃ i, df.cols.indexOf? v = some i ∧
      df2 = ⟨df.cols,
        ((dedupKeep df.rows).map (fun r => r.set i (toNumeric (cell r i)))).filter
          (fun r => decide (cell r i ≠ Value.missing))⟩ := by
  unfold limpiar_df at h
  cases hidx : df.cols.indexOf? v with
  | none =>
    rw [hidx] at h
    exact absurd h (by simp)
  | some i =>
    rw [hidx] at h
    simp only [Except.ok.injEq] at h
    exact ⟨i, rfl, h.symm⟩

theorem toNumeric_num (q : ℚ) : toNumeric (Value.num q) = Value.num q := rfl

theorem limpiar_all_num {df df2 : DataFrame} {v : String} {i : Nat}
    (h : limpiar_df df v = .ok df2) (hi : df.cols.indexOf? v = some i) :
    ∀ r ∈ df2.rows, ∃ q, cell r i = Value.num q := by
  obtain ⟨j, hj, hdf⟩ := limpiar_inv h
  rw [hi] at hj
  injection hj with hj
  subst hj
  subst hdf
  intro r hr
  exact mem_coerce_filter (fun w => ∃ q, w = Value.num q) toNumeric_cases hr

/-- C1: for every input dataset and value column present in it, the
Cleaner's output has no two identical rows.  Refuted: duplicates are removed
before the numeric coercion, so two rows that differ only in the spelling of
the same number ("1" versus "01") both survive deduplication and then become
identical.  -/
theorem C1_counterexample :
    limpiar_df ⟨["val"], [[Value.str "1"], [Value.str "01"]]⟩ "val"
      = .ok ⟨["val"], [[Value.num 1], [Value.num 1]]⟩ ∧
    ¬ ([[Value.num 1], [Value.num 1]] : List Row).Nodup := by
  exact ⟨by decide, by decide⟩

/-- C1 (amended): for every input dataset whose value column holds
already-numeric values (so the coercion cannot merge differently spelled
rows), the Cleaner's output contains no two identical rows under full-row
equality. -/
theorem C1_cleaner_nodup (df df2 : DataFrame) (v : String) (i : Nat)
    (hi : df.cols.indexOf? v = some i)
    (hnum : ∀ r ∈ df.rows, isNum (cell r i) = true)
    (h : limpiar_df df v = .ok df2) :
    df2.rows.Nodup := by
  obtain ⟨j, hj, hdf⟩ := limpiar_inv h
  rw [hi] at hj
  injection hj with hj
  subst hj
  subst hdf
  have hmap : (dedupKeep df.rows).map (fun r => r.set i (toNumeric (cell r i)))
      = dedupKeep df.rows := by
    refine map_eq_self fun r hr => ?_
    show r.set i (toNumeric (cell r i)) = r
    have hn := hnum r (mem_dedupKeep_iff.mp hr)
    cases hval : cell r i with
    | num q => exact set_cell_self hval
    | str s => rw [hval] at hn; simp [isNum] at hn
    | date d => rw [hval] at hn; simp [isNum] at hn
    | missing => rw [hval] at hn; simp [isNum] at hn
  show ((((dedupKeep df.rows).map (fun r => r.set i (toNumeric (cell r i)))).filter
    (fun r => decide (cell r i ≠ Value.missing)))).Nodup
  rw [hmap]
  exact (nodup_dedupKeep df.rows).filter _

/-- C1 witness: a concrete run of the amended claim, on a dataset whose
value column is already numeric. -/
theorem C1_witness :
    (⟨["val"], [[Value.num 1], [Value.num 2]]⟩ : DataFrame).rows.Nodup :=
  C1_cleaner_nodup ⟨["val"], [[Value.num 1], [Value.num 1], [Value.num 2]]⟩
    ⟨["val"], [[Value.num 1], [Value.num 2]]⟩ "val" 0
    (by decide) (by decide) (by decide)

/-- C2: applying the Cleaner a second time to its own output returns that
output unchanged.  Refuted: the coercion can create duplicate rows (see C1),
and the second application removes them, so the output changes. -/
theorem C2_counterexample :
    limpiar_df ⟨["val"], [[Value.str "1"], [Value.str "01"]]⟩ "val"
      = .ok ⟨["val"], [[Value.num 1], [Value.num 1]]⟩ ∧
    limpiar_df ⟨["val"], [[Value.num 1], [Value.num 1]]⟩ "val"
      ≠ .ok ⟨["val"], [[Value.num 1], [Value.num 1]]⟩ := by
  exact ⟨by decide, by decide⟩

/-- C2 (amended): whenever the Cleaner's output happens to contain no
duplicate rows — in particular whenever the coercion merged nothing — a
second application of the Cleaner returns that output unchanged (same rows,
same values, same order). -/
theorem C2_cleaner_idempotent (df df2 : DataFrame) (v : String)
    (h : limpiar_df df v = .ok df2) (hnd : df2.rows.Nodup) :
    limpiar_df df2 v = .ok df2 := by
  obtain ⟨i, hi, hdf⟩ := limpiar_inv h
  have hcols : df2.cols = df.cols := by rw [hdf]
  have hnum : ∀ r ∈ df2.rows, ∃ q, cell r i = Value.num q := limpiar_all_num h hi
  have hi2 : df2.cols.indexOf? v = some i := by rw [hcols]; exact hi
  rw [limpiar_eq_of_indexOf hi2, dedupKeep_eq_self hnd]
  have hmap : df2.rows.map (fun r => r.set i (toNumeric (cell r i))) = df2.rows := by
    refine map_eq_self fun r hr => ?_
    show r.set i (toNumeric (cell r i)) = r
    obtain ⟨q, hq⟩ := hnum r hr
    rw [hq]
    exact set_cell_self hq
  rw [hmap]
  have hfilter : df2.rows.filter (fun r => decide (cell r i ≠ Value.missing))
      = df2.rows := by
    rw [List.filter_eq_self]
    intro r hr
    obtain ⟨q, hq⟩ := hnum r hr
    simp [hq]
  rw [hfilter]

/-- C2 witness: a concrete dataset on which the Cleaner's output is
duplicate-free, so re-cleaning it is the identity. -/
theorem C2_witness :
    limpiar_df ⟨["val"], [[Value.num 1], [Value.num 2]]⟩ "val"
      = .ok ⟨["val"], [[Value.num 1], [Value.num 2]]⟩ :=
  C2_cleaner_idempotent ⟨["val"], [[Value.str "1"], [Value.str "2"]]⟩
    ⟨["val"], [[Value.num 1], [Value.num 2]]⟩ "val" (by decide) (by decide)

/-! Inversion lemmas for the Aggregator. -/

theorem calcular_inv {df res : DataFrame} {cat val ind : String}
    (h : calcular_indicador df cat val ind = .ok res) :
    ∃ ci vi, df.cols.indexOf? cat = some ci ∧ ind ∈ INDICADORES_VALIDOS ∧
      df.cols.indexOf? val = some vi ∧
      res = ⟨[cat, ind ++ "_" ++ val],
        (dedupKeep (df.rows.map (fun r => cell r ci))).map (fun k =>
          [k, aggregate ind ((df.rows.filter (fun r => decide (cell r ci = k))).map
            (fun r => cell r vi))])⟩ := by
  unfold calcular_indicador at h
  cases hci : df.cols.indexOf? cat with
  | none =>
    simp only [hci] at h
    exact absurd h (by simp)
  | some ci =>
    simp only [hci] at h
    by_cases hind : ind ∈ INDICADORES_VALIDOS
    · rw [if_pos hind] at h
      cases hvi : df.cols.indexOf? val with
      | none =>
        simp only [hvi] at h
        exact absurd h (by simp)
      | some vi =>
        simp only [hvi, Except.ok.injEq] at h
        exact ⟨ci, vi, rfl, hind, rfl, h.symm⟩
    · rw [if_neg hind] at h
      exact absurd h (by simp)

/-- C3: with the category column present, the Aggregator raises the
invalid-indicator error — whose payload lists exactly the valid options,
sorted — precisely when the selector is outside INDICADORES_VALIDOS, the
code's set for the spec's four statistics sum/mean/median/count
(suma/promedio/mediana/conteo); for any member of that set this error is
never raised. -/
theorem C3_invalid_indicator (df : DataFrame) (cat val ind : String) (ci : Nat)
    (hci : df.cols.indexOf? cat = some ci) :
    (calcular_indicador df cat val ind
        = .error (.invalidIndicator (sortListBy strLe INDICADORES_VALIDOS))
      ↔ ind ∉ INDICADORES_VALIDOS) ∧
    sortListBy strLe INDICADORES_VALIDOS = ["conteo", "mediana", "promedio", "suma"] := by
  constructor
  · unfold calcular_indicador
    simp only [hci]
    by_cases hind : ind ∈ INDICADORES_VALIDOS
    · rw [if_pos hind]
      constructor
      · intro h
        cases hvi : df.cols.indexOf? val with
        | none =>
          simp only [hvi] at h
          exact absurd h (by simp)
        | some vi =>
          simp only [hvi] at h
          exact absurd h (by simp)
      · intro h
        exact absurd hind h
    · rw [if_neg hind]
      simp [hind]
  · decide

/-- C3 witness: the selector "sum" (the spec's English rendering, which the
code does not accept: the code's selector is "suma") triggers the
invalid-indicator error listing the four valid options. -/
theorem C3_witness :
    calcular_indicador ⟨["cat"], [[Value.str "A"]]⟩ "cat" "val" "sum"
      = .error (.invalidIndicator (sortListBy strLe INDICADORES_VALIDOS)) ∧
    sortListBy strLe INDICADORES_VALIDOS = ["conteo", "mediana", "promedio", "suma"] :=
  ⟨(C3_invalid_indicator ⟨["cat"], [[Value.str "A"]]⟩ "cat" "val" "sum" 0
      (by decide)).1.mpr (by decide),
   (C3_invalid_indicator ⟨["cat"], [[Value.str "A"]]⟩ "cat" "val" "sum" 0
      (by decide)).2⟩

/-- C4: on the dataset [(cat A, val "10"), (cat A, val "20"), (cat B, val
"bad")], cleaning drops the unparseable row and aggregating with the sum
indicator (code selector "suma") yields the single row (A, 30) in the
statistic column named indicador_valor, the spec's sum_val. -/
theorem C4_sum_scenario :
    limpiar_df ⟨["cat", "val"],
        [[Value.str "A", Value.str "10"], [Value.str "A", Value.str "20"],
          [Value.str "B", Value.str "bad"]]⟩ "val"
      = .ok ⟨["cat", "val"],
        [[Value.str "A", Value.num 10], [Value.str "A", Value.num 20]]⟩ ∧
    calcular_indicador ⟨["cat", "val"],
        [[Value.str "A", Value.num 10], [Value.str "A", Value.num 20]]⟩
        "cat" "val" "suma"
      = .ok ⟨["cat", "suma_val"], [[Value.str "A", Value.num 30]]⟩ := by
  constructor
  · decide
  · have h : calcular_indicador ⟨["cat", "val"],
        [[Value.str "A", Value.num 10], [Value.str "A", Value.num 20]]⟩
        "cat" "val" "suma"
        = .ok ⟨["cat", "suma_val"], [[Value.str "A", Value.num (10 + (20 + 0))]]⟩ := rfl
    rw [h]
    norm_num

/-- C5: when the Aggregator succeeds, its output has exactly one row per
distinct value of the category column present in the input, and every
present category value — the missing marker included, so missing categories
form their own group — heads exactly one output row. -/
theorem C5_row_count (df res : DataFrame) (cat val ind : String) (ci : Nat)
    (hci : df.cols.indexOf? cat = some ci)
    (h : calcular_indicador df cat val ind = .ok res) :
    res.rows.length = (df.rows.map (fun r => cell r ci)).toFinset.card ∧
    ∀ k ∈ df.rows.map (fun r => cell r ci), ∃ st, [k, st] ∈ res.rows := by
  obtain ⟨ci2, vi, hci2, hind, hvi, hres⟩ := calcular_inv h
  rw [hci] at hci2
  injection hci2 with hci2
  subst hci2
  subst hres
  constructor
  · show ((dedupKeep (df.rows.map (fun r => cell r ci))).map _).length = _
    rw [List.length_map]
    exact dedupKeep_length_toFinset _
  · intro k hk
    exact ⟨_, List.mem_map_of_mem _ (mem_dedupKeep_iff.mpr hk)⟩

/-- C5 witness: a dataset with categories A, missing, missing gives two
output rows — one for A, one for the missing group. -/
theorem C5_witness :
    (⟨["cat", "conteo_val"],
        [[Value.str "A", Value.num 1], [Value.missing, Value.num 2]]⟩
      : DataFrame).rows.length
      = ((⟨["cat", "val"],
          [[Value.str "A", Value.num 1], [Value.missing, Value.num 2],
            [Value.missing, Value.num 3]]⟩ : DataFrame).rows.map
          (fun r => cell r 0)).toFinset.card ∧
    ∀ k ∈ (⟨["cat", "val"],
        [[Value.str "A", Value.num 1], [Value.missing, Value.num 2],
          [Value.missing, Value.num 3]]⟩ : DataFrame).rows.map (fun r => cell r 0),
      ∃ st, [k, st] ∈ (⟨["cat", "conteo_val"],
        [[Value.str "A", Value.num 1], [Value.missing, Value.num 2]]⟩
          : DataFrame).rows :=
  C5_row_count
    ⟨["cat", "val"],
      [[Value.str "A", Value.num 1], [Value.missing, Value.num 2],
        [Value.missing, Value.num 3]]⟩
    ⟨["cat", "conteo_val"], [[Value.str "A", Value.num 1], [Value.missing, Value.num 2]]⟩
    "cat" "val" "conteo" 0 (by decide) (by decide)

/-! Lemmas about the date filter and its bounds. -/

theorem parseDate_empty : parseDate "" = none := rfl

theorem applyBound_ok_sub {cmp : Value → Int → Bool} {b : Option String} {i : Nat}
    {rows rows2 : List Row} (h : applyBound cmp b i rows = .ok rows2) :
    ∀ r ∈ rows2, r ∈ rows := by
  cases b with
  | none =>
    simp only [applyBound, Except.ok.injEq] at h
    subst h
    exact fun r hr => hr
  | some s =>
    simp only [applyBound] at h
    by_cases hs : s = ""
    · rw [if_pos hs] at h
      simp only [Except.ok.injEq] at h
      subst h
      exact fun r hr => hr
    · rw [if_neg hs] at h
      cases hp : parseDate s with
      | none => simp [hp] at h
      | some d =>
        simp only [hp, Except.ok.injEq] at h
        subst h
        exact fun r hr => List.mem_of_mem_filter hr

theorem applyBound_ok_pred {cmp : Value → Int → Bool} {b : Option String} {i : Nat}
    {rows rows2 : List Row} (h : applyBound cmp b i rows = .ok rows2) :
    ∀ r ∈ rows2, ∀ s d, b = some s → parseDate s = some d → cmp (cell r i) d = true := by
  cases b with
  | none =>
    intro r hr s d hb
    exact absurd hb (by simp)
  | some s0 =>
    simp only [applyBound] at h
    by_cases hs : s0 = ""
    · rw [if_pos hs] at h
      simp only [Except.ok.injEq] at h
      subst h
      intro r hr s d hb hp
      injection hb with hb
      rw [← hb, hs, parseDate_empty] at hp
      exact absurd hp (by simp)
    · rw [if_neg hs] at h
      cases hp0 : parseDate s0 with
      | none => simp [hp0] at h
      | some d0 =>
        simp only [hp0, Except.ok.injEq] at h
        subst h
        intro r hr s d hb hp
        injection hb with hb
        rw [← hb, hp0] at hp
        injection hp with hp
        rw [← hp]
        exact (List.mem_filter.mp hr).2

theorem applyBound_error {cmp : Value → Int → Bool} {b : Option String} {i : Nat}
    {rows : List Row} {e : Err} (h : applyBound cmp b i rows = .error e) :
    ∃ s, b = some s ∧ s ≠ "" ∧ parseDate s = none ∧ e = .badBound s := by
  cases b with
  | none => simp [applyBound] at h
  | some s =>
    simp only [applyBound] at h
    by_cases hs : s = ""
    · rw [if_pos hs] at h
      exact absurd h (by simp)
    · rw [if_neg hs] at h
      cases hp : parseDate s with
      | none =>
        simp only [hp, Except.error.injEq] at h
        exact ⟨s, rfl, hs, hp, h.symm⟩
      | some d => simp [hp] at h

theorem applyBound_some_bad (cmp : Value → Int → Bool) (i : Nat) (rows : List Row)
    {s : String} (hs : s ≠ "") (hp : parseDate s = none) :
    applyBound cmp (some s) i rows = .error (.badBound s) := by
  simp only [applyBound]
  rw [if_neg hs]
  simp [hp]

theorem applyBound_ok_of (cmp : Value → Int → Bool) (i : Nat) (rows : List Row)
    {b : Option String} (hb : boundOkB b = true) :
    ∃ rows2, applyBound cmp b i rows = .ok rows2 := by
  cases b with
  | none => exact ⟨rows, rfl⟩
  | some s =>
    by_cases hs : s = ""
    · subst hs
      exact ⟨rows, rfl⟩
    · have hb2 : (parseDate s).isSome = true := by
        simpa [boundOkB, hs] using hb
      obtain ⟨d, hd⟩ := Option.isSome_iff_exists.mp hb2
      refine ⟨rows.filter (fun r => cmp (cell r i) d), ?_⟩
      simp only [applyBound]
      rw [if_neg hs]
      simp [hd]

theorem filtrar_inv_main {df df2 : DataFrame} {desde hasta : Option String} {i : Nat}
    (hfind : df.cols.findIdx? (fun c => decide (lowerStr c ∈ FECHA_NAMES)) = some i)
    (hnb : ¬(desde = none ∧ hasta = none))
    (h : filtrar_por_fecha df desde hasta = .ok df2) :
    ∃ rows3 rows4,
      applyBound dateGE desde i
        ((df.rows.map (fun r => r.set i (toDate (cell r i)))).filter
          (fun r => decide (cell r i ≠ Value.missing))) = .ok rows3 ∧
      applyBound dateLE hasta i rows3 = .ok rows4 ∧ df2 = ⟨df.cols, rows4⟩ := by
  unfold filtrar_por_fecha at h
  simp only [hfind] at h
  rw [if_neg hnb] at h
  cases h3 : applyBound dateGE desde i
      ((df.rows.map (fun r => r.set i (toDate (cell r i)))).filter
        (fun r => decide (cell r i ≠ Value.missing))) with
  | error e =>
    simp only [h3] at h
    exact absurd h (by simp)
  | ok rows3 =>
    simp only [h3] at h
    cases h4 : applyBound dateLE hasta i rows3 with
    | error e =>
      simp only [h4] at h
      exact absurd h (by simp)
    | ok rows4 =>
      simp only [h4, Except.ok.injEq] at h
      exact ⟨rows3, rows4, rfl, h4, h.symm⟩

/-- C6: when a date column is detected and at least one bound is supplied,
every row surviving the Date Filter carries a parsed date in that column,
and that date is at least any parseable lower bound and at most any
parseable upper bound (both inclusive; an absent bound constrains
nothing). -/
theorem C6_date_bounds (df df2 : DataFrame) (desde hasta : Option String) (i : Nat)
    (hfind : df.cols.findIdx? (fun c => decide (lowerStr c ∈ FECHA_NAMES)) = some i)
    (hnb : ¬(desde = none ∧ hasta = none))
    (h : filtrar_por_fecha df desde hasta = .ok df2) :
    ∀ r ∈ df2.rows, ∃ d : Int, cell r i = Value.date d ∧
      (∀ s dlo, desde = some s → parseDate s = some dlo → dlo ≤ d) ∧
      (∀ s dhi, hasta = some s → parseDate s = some dhi → d ≤ dhi) := by
  obtain ⟨rows3, rows4, h3, h4, hdf⟩ := filtrar_inv_main hfind hnb h
  subst hdf
  intro r hr
  have hr3 : r ∈ rows3 := applyBound_ok_sub h4 r hr
  have hr2 : r ∈ (df.rows.map (fun r0 => r0.set i (toDate (cell r0 i)))).filter
      (fun r0 => decide (cell r0 i ≠ Value.missing)) := applyBound_ok_sub h3 r hr3
  obtain ⟨d, hd⟩ :=
    mem_coerce_filter (fun w => ∃ d, w = Value.date d) toDate_cases hr2
  refine ⟨d, hd, ?_, ?_⟩
  · intro s dlo hs hp
    have hcmp := applyBound_ok_pred h3 r hr3 s dlo hs hp
    rw [hd] at hcmp
    simpa [dateGE] using hcmp
  · intro s dhi hs hp
    have hcmp := applyBound_ok_pred h4 r hr s dhi hs hp
    rw [hd] at hcmp
    simpa [dateLE] using hcmp

/-- C6 witness: filtering rows dated 2024-01-05, 2024-03-01 and "bad" with
lower bound 2024-02-01 keeps exactly the 2024-03-01 row, whose date honours
the bound. -/
theorem C6_witness :
    ∃ d : Int, cell [Value.date 20240301, Value.num 2] 0 = Value.date d ∧
      (∀ s dlo, (some "2024-02-01" : Option String) = some s →
        parseDate s = some dlo → dlo ≤ d) ∧
      (∀ s dhi, (none : Option String) = some s → parseDate s = some dhi → d ≤ dhi) :=
  C6_date_bounds
    ⟨["fecha", "val"],
      [[Value.str "2024-01-05", Value.num 1], [Value.str "2024-03-01", Value.num 2],
        [Value.str "bad", Value.num 3]]⟩
    ⟨["fecha", "val"], [[Value.date 20240301, Value.num 2]]⟩
    (some "2024-02-01") none 0 (by decide) (by simp) (by decide)
    [Value.date 20240301, Value.num 2] (by decide)

/-- C10: with a date column detected, an unparseable non-empty bound string
makes the Date Filter raise the bound-parse exception — a failure outside
the spec's four-error taxonomy — while rows whose own date values fail to
parse never cause an error: whenever both bounds are absent, empty or
parseable the filter succeeds, silently dropping such rows. -/
theorem C10_bad_bound_raises (df : DataFrame) (desde hasta : Option String) (i : Nat)
    (hfind : df.cols.findIdx? (fun c => decide (lowerStr c ∈ FECHA_NAMES)) = some i) :
    ((∃ s, (desde = some s ∨ hasta = some s) ∧ s ≠ "" ∧ parseDate s = none) →
      ∃ s2, filtrar_por_fecha df desde hasta = .error (.badBound s2)) ∧
    ((boundOkB desde = true ∧ boundOkB hasta = true) →
      ∃ df2, filtrar_por_fecha df desde hasta = .ok df2) := by
  constructor
  · rintro ⟨s, hor, hs, hp⟩
    have hnb : ¬(desde = none ∧ hasta = none) := by
      rcases hor with h1 | h1 <;> rw [h1] <;> simp
    unfold filtrar_por_fecha
    simp only [hfind]
    rw [if_neg hnb]
    cases h3 : applyBound dateGE desde i
        ((df.rows.map (fun r => r.set i (toDate (cell r i)))).filter
          (fun r => decide (cell r i ≠ Value.missing))) with
    | error e =>
      obtain ⟨s3, _, _, _, he⟩ := applyBound_error h3
      exact ⟨s3, by rw [he]⟩
    | ok rows3 =>
      rcases hor with h1 | h1
      · exfalso
        rw [h1, applyBound_some_bad dateGE i _ hs hp] at h3
        exact absurd h3 (by simp)
      · have h4 : applyBound dateLE hasta i rows3 = .error (.badBound s) := by
          rw [h1]
          exact applyBound_some_bad dateLE i rows3 hs hp
        simp only [h4]
        exact ⟨s, rfl⟩
  · rintro ⟨h1, h2⟩
    unfold filtrar_por_fecha
    simp only [hfind]
    by_cases hnb : desde = none ∧ hasta = none
    · rw [if_pos hnb]
      exact ⟨df, rfl⟩
    · rw [if_neg hnb]
      obtain ⟨rows3, h3⟩ := applyBound_ok_of dateGE i
        ((df.rows.map (fun r => r.set i (toDate (cell r i)))).filter
          (fun r => decide (cell r i ≠ Value.missing))) h1
      simp only [h3]
      obtain ⟨rows4, h4⟩ := applyBound_ok_of dateLE i rows3 h2
      simp only [h4]
      exact ⟨_, rfl⟩

/-- C10 witness: the unparseable lower bound "garbage" raises the
bound-parse error on a dataset with a date column; the parseable bound
succeeds even though a data value ("bad") does not parse. -/
theorem C10_witness :
    (∃ s2, filtrar_por_fecha ⟨["fecha"], [[Value.str "2024-01-05"]]⟩
      (some "garbage") none = .error (.badBound s2)) ∧
    (∃ df2, filtrar_por_fecha ⟨["fecha"], [[Value.str "2024-01-05"], [Value.str "bad"]]⟩
      (some "2024-01-01") none = .ok df2) :=
  ⟨(C10_bad_bound_raises ⟨["fecha"], [[Value.str "2024-01-05"]]⟩
      (some "garbage") none 0 (by decide)).1 ⟨"garbage", Or.inl rfl, by decide, by decide⟩,
   (C10_bad_bound_raises ⟨["fecha"], [[Value.str "2024-01-05"], [Value.str "bad"]]⟩
      (some "2024-01-01") none 0 (by decide)).2 ⟨by decide, by decide⟩⟩

/-- C7: on a group with an even number of numeric values the median is the
midpoint of the two middle values of the sorted slice — stated against any
sorted permutation of the slice — and in particular the mediana indicator on
the one-group values [1, 2, 3, 4] returns 5/2 = 2.5. -/
theorem C7_median_even :
    (∀ (l s : List ℚ) (k : Nat), s.Perm l → s.Sorted (· ≤ ·) → s.length = 2 * k + 2 →
      median l = .num ((s.getD k 0 + s.getD (k + 1) 0) / 2)) ∧
    calcular_indicador ⟨["g", "v"],
        [[Value.str "x", Value.num 1], [Value.str "x", Value.num 2],
          [Value.str "x", Value.num 3], [Value.str "x", Value.num 4]]⟩
        "g" "v" "mediana"
      = .ok ⟨["g", "mediana_v"], [[Value.str "x", Value.num (5 / 2)]]⟩ := by
  constructor
  · intro l s k hperm hsort hlen
    have hs0 : List.insertionSort (· ≤ ·) l = s :=
      List.eq_of_perm_of_sorted ((List.perm_insertionSort _ l).trans hperm.symm)
        (List.sorted_insertionSort _ l) hsort
    simp only [median]
    rw [hs0, hlen]
    rw [if_neg (by omega), if_neg (by omega)]
    have h3 : (2 * k + 2) / 2 = k + 1 := by omega
    rw [h3]
    have h4 : k + 1 - 1 = k := by omega
    rw [h4]
  · have h : calcular_indicador ⟨["g", "v"],
        [[Value.str "x", Value.num 1], [Value.str "x", Value.num 2],
          [Value.str "x", Value.num 3], [Value.str "x", Value.num 4]]⟩
        "g" "v" "mediana"
        = .ok ⟨["g", "mediana_v"], [[Value.str "x", Value.num ((2 + 3) / 2)]]⟩ := rfl
    rw [h]
    norm_num

/-- C7 witness: the general even-length statement applied to the unsorted
slice [3, 1, 4, 2] with sorted permutation [1, 2, 3, 4]. -/
theorem C7_witness :
    median [3, 1, 4, 2] = .num ((2 + 3) / 2) :=
  C7_median_even.1 [3, 1, 4, 2] [1, 2, 3, 4] 1 (by decide) (by decide) (by decide)

/-- C9: whenever the pipeline aborts with an error — the four validation
errors included — the list of filesystem writes it performed is empty: every
error is raised before the write of the output file. -/
theorem C9_no_output_on_error (fileExists : Bool) (contents : DataFrame) (args : Args)
    (e : Err) (h : (mainModel fileExists contents args).2 = .error e) :
    (mainModel fileExists contents args).1 = [] := by
  unfold mainModel at h ⊢
  cases fileExists with
  | false => rfl
  | true =>
    rw [if_neg (by decide)] at h ⊢
    split at h
    · simp_all
    · split at h
      · simp_all
      · split at h
        · simp_all
        · split at h
          · simp_all
          · simp_all

/-- C9 witness: a run that aborts because the input file does not exist
performs no filesystem write. -/
theorem C9_witness :
    (mainModel false ⟨["c"], [[Value.str "A"]]⟩
      ⟨"in.csv", "cat", "val", "promedio", none, none, "out.csv"⟩).1 = [] :=
  C9_no_output_on_error false ⟨["c"], [[Value.str "A"]]⟩
    ⟨"in.csv", "cat", "val", "promedio", none, none, "out.csv"⟩
    (.fileNotFound "in.csv") (by decide)

/-! Counting lemmas for the conteo statistic. -/

theorem filtrar_preserves {df df2 : DataFrame} {desde hasta : Option String} {vi : Nat}
    (h : filtrar_por_fecha df desde hasta = .ok df2)
    (hnm : ∀ r ∈ df.rows, cell r vi ≠ Value.missing) :
    df2.cols = df.cols ∧ ∀ r ∈ df2.rows, cell r vi ≠ Value.missing := by
  cases hfind : df.cols.findIdx? (fun c => decide (lowerStr c ∈ FECHA_NAMES)) with
  | none =>
    have heq : filtrar_por_fecha df desde hasta = .ok df := by
      unfold filtrar_por_fecha
      simp only [hfind]
    rw [heq] at h
    injection h with h
    subst h
    exact ⟨rfl, hnm⟩
  | some i =>
    by_cases hnb : desde = none ∧ hasta = none
    · have heq : filtrar_por_fecha df desde hasta = .ok df := by
        unfold filtrar_por_fecha
        simp only [hfind]
        rw [if_pos hnb]
      rw [heq] at h
      injection h with h
      subst h
      exact ⟨rfl, hnm⟩
    · obtain ⟨rows3, rows4, h3, h4, hdf⟩ := filtrar_inv_main hfind hnb h
      subst hdf
      refine ⟨rfl, ?_⟩
      intro r hr
      have hr3 : r ∈ rows3 := applyBound_ok_sub h4 r hr
      have hr2 : r ∈ (df.rows.map (fun r0 => r0.set i (toDate (cell r0 i)))).filter
          (fun r0 => decide (cell r0 i ≠ Value.missing)) := applyBound_ok_sub h3 r hr3
      obtain ⟨hmem, hpred⟩ := List.mem_filter.mp hr2
      obtain ⟨r0, hr0, hset⟩ := List.mem_map.mp hmem
      by_cases hij : i = vi
      · subst hij
        exact of_decide_eq_true hpred
      · rw [← hset, cell_set_ne hij]
        exact hnm r0 hr0

theorem sum_map_add {α : Type} (f g : α → ℕ) :
    ∀ l : List α, (l.map (fun a => f a + g a)).sum = (l.map f).sum + (l.map g).sum := by
  intro l
  induction l with
  | nil => simp
  | cons a l ih =>
    simp only [List.map_cons, List.sum_cons, ih]
    ring

theorem sum_indicator {α : Type} [DecidableEq α] {x : α} :
    ∀ keys : List α, keys.Nodup → x ∈ keys →
      (keys.map (fun k => if x = k then (1 : ℕ) else 0)).sum = 1 := by
  intro keys
  induction keys with
  | nil => simp
  | cons a ks ih =>
    intro hnd hx
    obtain ⟨hna, hnd2⟩ := List.nodup_cons.mp hnd
    rcases List.mem_cons.mp hx with h | h
    · subst h
      simp only [List.map_cons, List.sum_cons, if_pos rfl]
      have hzero : (ks.map (fun k => if x = k then (1 : ℕ) else 0)).sum = 0 := by
        apply List.sum_eq_zero
        intro n hn
        obtain ⟨k, hk, hkn⟩ := List.mem_map.mp hn
        rw [← hkn, if_neg]
        intro he
        exact hna (he ▸ hk)
      rw [hzero]
      simp
    · have hxa : x ≠ a := fun he => hna (he ▸ h)
      simp only [List.map_cons, List.sum_cons, if_neg hxa]
      rw [ih hnd2 h]

theorem sum_group_lengths {α : Type} [DecidableEq α] (keyf : Row → α) :
    ∀ (rows : List Row) (keys : List α), keys.Nodup → (∀ r ∈ rows, keyf r ∈ keys) →
      (keys.map (fun k => (rows.filter (fun r => decide (keyf r = k))).length)).sum
        = rows.length := by
  intro rows
  induction rows with
  | nil =>
    intro keys _ _
    simp
  | cons r rest ih =>
    intro keys hnd hmem
    have hstep : ∀ k ∈ keys,
        ((r :: rest).filter (fun r0 => decide (keyf r0 = k))).length
          = (if keyf r = k then 1 else 0)
            + (rest.filter (fun r0 => decide (keyf r0 = k))).length := by
      intro k _
      by_cases hk : keyf r = k
      · simp [List.filter_cons, hk]
        omega
      · simp [List.filter_cons, hk]
    rw [List.map_congr_left hstep, sum_map_add,
      sum_indicator keys hnd (hmem r (List.mem_cons_self _ _)),
      ih keys hnd (fun x hx => hmem x (List.mem_cons_of_mem _ hx))]
    simp only [List.length_cons]
    omega

theorem aggregate_conteo (l : List Value) :
    aggregate "conteo" l = .num (countNonNA l : ℚ) := by
  unfold aggregate
  rw [if_neg (by decide), if_neg (by decide), if_neg (by decide)]

theorem countNonNA_all {rows : List Row} {vi : Nat}
    (h : ∀ r ∈ rows, cell r vi ≠ Value.missing) :
    countNonNA (rows.map (fun r => cell r vi)) = rows.length := by
  unfold countNonNA
  rw [List.filter_map, List.length_map]
  have hfil : rows.filter ((fun v => decide (v ≠ Value.missing)) ∘ (fun r => cell r vi))
      = rows := by
    rw [List.filter_eq_self]
    intro r hr
    exact decide_eq_true (h r hr)
  rw [hfil]

theorem filterMap_getNum_cons_num :
    ∀ (keys : List Value) (g : Value → ℚ),
      ((keys.map (fun k => [k, Value.num (g k)])).filterMap (fun r => getNum (cell r 1)))
        = keys.map g := by
  intro keys g
  induction keys with
  | nil => rfl
  | cons a ks ih =>
    simp only [List.map_cons, List.filterMap_cons]
    show (match getNum (cell [a, Value.num (g a)] 1) with
      | none => (ks.map (fun k => [k, Value.num (g k)])).filterMap (fun r => getNum (cell r 1))
      | some b => b :: (ks.map (fun k => [k, Value.num (g k)])).filterMap
          (fun r => getNum (cell r 1))) = g a :: ks.map g
    show g a :: (ks.map (fun k => [k, Value.num (g k)])).filterMap
      (fun r => getNum (cell r 1)) = g a :: ks.map g
    rw [ih]

/-- C8: on any dataset produced by the Cleaner, optionally followed by the
Date Filter, aggregating with the count statistic (code selector "conteo")
yields per-group values summing to the total number of rows of that
dataset. -/
theorem C8_count_total (df0 df1 df2 res : DataFrame) (v cat : String)
    (desde hasta : Option String)
    (hclean : limpiar_df df0 v = .ok df1)
    (hfil : df2 = df1 ∨ filtrar_por_fecha df1 desde hasta = .ok df2)
    (hagg : calcular_indicador df2 cat v "conteo" = .ok res) :
    (statValues res).sum = (df2.rows.length : ℚ) := by
  obtain ⟨vi, hvi0, hdf1⟩ := limpiar_inv hclean
  have hcols1 : df1.cols = df0.cols := by rw [hdf1]
  have hnm1 : ∀ r ∈ df1.rows, cell r vi ≠ Value.missing := by
    intro r hr
    obtain ⟨q, hq⟩ := limpiar_all_num hclean hvi0 r hr
    rw [hq]
    simp
  have hnm2 : ∀ r ∈ df2.rows, cell r vi ≠ Value.missing := by
    rcases hfil with h | h
    · subst h
      exact hnm1
    · exact (filtrar_preserves h hnm1).2
  have hcols2 : df2.cols = df0.cols := by
    rcases hfil with h | h
    · rw [h, hcols1]
    · rw [(filtrar_preserves h hnm1).1, hcols1]
  obtain ⟨ci, vi2, hci, hind, hvi2, hres⟩ := calcular_inv hagg
  rw [hcols2, hvi0] at hvi2
  injection hvi2 with hvi2
  subst hvi2
  subst hres
  unfold statValues
  show (((dedupKeep (df2.rows.map (fun r => cell r ci))).map (fun k =>
      [k, aggregate "conteo" ((df2.rows.filter (fun r => decide (cell r ci = k))).map
        (fun r => cell r vi))])).filterMap (fun r => getNum (cell r 1))).sum
    = (df2.rows.length : ℚ)
  simp only [aggregate_conteo]
  rw [filterMap_getNum_cons_num]
  have hcnt : ∀ k ∈ dedupKeep (df2.rows.map (fun r => cell r ci)),
      ((countNonNA ((df2.rows.filter (fun r => decide (cell r ci = k))).map
          (fun r => cell r vi)) : ℕ) : ℚ)
        = (((df2.rows.filter (fun r => decide (cell r ci = k))).length : ℕ) : ℚ) := by
    intro k _
    congr 1
    apply countNonNA_all
    intro r hr
    exact hnm2 r (List.mem_of_mem_filter hr)
  rw [List.map_congr_left hcnt]
  have hcomp : (dedupKeep (df2.rows.map (fun r => cell r ci))).map
      (fun k => (((df2.rows.filter (fun r => decide (cell r ci = k))).length : ℕ) : ℚ))
      = ((dedupKeep (df2.rows.map (fun r => cell r ci))).map
        (fun k => (df2.rows.filter (fun r => decide (cell r ci = k))).length)).map
          (fun n : ℕ => (n : ℚ)) := by
    rw [List.map_map]
    rfl
  rw [hcomp, ← Nat.cast_list_sum]
  congr 1
  apply sum_group_lengths
  · exact nodup_dedupKeep _
  · intro r hr
    exact mem_dedupKeep_iff.mpr (List.mem_map_of_mem _ hr)

/-- C8 witness: a concrete clean-then-count run whose per-group counts 1 and
1 sum to the 2 surviving rows. -/
theorem C8_witness :
    (statValues ⟨["cat", "conteo_val"],
        [[Value.str "A", Value.num 1], [Value.str "B", Value.num 1]]⟩).sum
      = (((⟨["cat", "val"],
          [[Value.str "A", Value.num 1], [Value.str "B", Value.num 2]]⟩
            : DataFrame).rows.length : ℕ) : ℚ) :=
  C8_count_total
    ⟨["cat", "val"], [[Value.str "A", Value.str "1"], [Value.str "B", Value.str "2"],
      [Value.str "B", Value.str "x"]]⟩
    ⟨["cat", "val"], [[Value.str "A", Value.num 1], [Value.str "B", Value.num 2]]⟩
    ⟨["cat", "val"], [[Value.str "A", Value.num 1], [Value.str "B", Value.num 2]]⟩
    ⟨["cat", "conteo_val"], [[Value.str "A", Value.num 1], [Value.str "B", Value.num 1]]⟩
    "val" "cat" none none (by decide) (Or.inl rfl) (by decide)

end Abcd
